import Mathlib

/-!
Shallow embedding of `storyblok-rich-text-react-renderer` (src/index.js,
the extended variant with textResolver / defaultStringResolver / emoji /
extra marks) in Lean 4, together with theorems settling the frozen claims.

Modelling conventions:
* JS nullish values (`null` / `undefined`) that flow through the renderer
  are merged into the single output constructor `RVal.null`, matching the
  loose `node != null` filter of `renderNodes`.
* A JS property access on `undefined`/`null` (e.g. `props.level` when a
  heading node has no `attrs`, or destructuring `node.attrs` of a blok
  node without attrs) raises a TypeError; the evaluator returns
  `Except.error` there.  Everything else is total.
* React elements are opaque to the renderer; we model them as the
  `RVal.elem` constructor carrying the tag, the props object built by the
  resolver, the optional React key, and the children value.
  `React.isValidElement` is true exactly on `RVal.elem`;
  `React.cloneElement(e, {key})` replaces the top-level key.
* `attrs` objects are modelled by the structure `Attrs` with one optional
  field per property the source reads (`class` is spelled `cls`).
-/

/-- JS property values that the default resolvers put on output elements:
either a string or JS `undefined` (a present-but-undefined property). -/
inductive PVal where
  | str (s : String)
  | undef
deriving Repr, DecidableEq

/-- `attrs.x` for an optional string attribute: absent attribute reads as
`undefined`. -/
def ov : Option String → PVal
  | some s => PVal.str s
  | none => PVal.undef

/-- JS template interpolation `${x}`: `undefined` prints as "undefined". -/
def jsTemplate : Option String → String
  | some s => s
  | none => "undefined"

/-- `h${props.level}`: the level is interpolated into the tag name;
a missing `level` property yields the tag "hundefined". -/
def headingTag : Option Nat → String
  | some n => "h" ++ toString n
  | none => "hundefined"

/-- The props of one component record in a blok node's `attrs.body`,
after `component` has been split off by `({ component, ...props })`. -/
abbrev BlokProps := List (String × PVal)

/-- One record of a blok node's `attrs.body`: `{ component, ...props }`. -/
structure BlokRecord where
  component : String
  props : BlokProps
deriving Repr, DecidableEq

/-- The `attrs` object of a node or mark.  One optional field per property
the source code reads; `none` = property absent (reads as `undefined`). -/
structure Attrs where
  level : Option Nat := none
  cls : Option String := none
  src : Option String := none
  alt : Option String := none
  title : Option String := none
  href : Option String := none
  target : Option String := none
  linktype : Option String := none
  name : Option String := none
  emoji : Option String := none
  fallbackImage : Option String := none
  color : Option String := none
  id : Option String := none
  body : Option (List BlokRecord) := none
deriving Repr, DecidableEq

/-- A mark attached to a node: `{ type, attrs? }`. -/
structure Mark where
  type : String
  attrs : Option Attrs := none
deriving Repr, DecidableEq

/-- A document node: `{ type, attrs?, content?, marks?, text? }`.
`content = none` models an absent (or non-array) `content` property. -/
inductive Node where
  | mk (type : String) (attrs : Option Attrs) (content : Option (List Node))
      (marks : Option (List Mark)) (text : Option String)

def Node.type : Node → String
  | .mk t _ _ _ _ => t

def Node.attrs : Node → Option Attrs
  | .mk _ a _ _ _ => a

def Node.content : Node → Option (List Node)
  | .mk _ _ c _ _ => c

def Node.marks : Node → Option (List Mark)
  | .mk _ _ _ m _ => m

def Node.text : Node → Option String
  | .mk _ _ _ _ tx => tx

/-- The props object a default resolver hands to `React.createElement`.
One constructor per construction site in the source. -/
inductive RProps where
  /-- the literal `null` props of `React.createElement(tag, null, ...)` -/
  | jsnull
  /-- the empty object `{}` (mark resolvers when `attrs` is absent) -/
  | pempty
  /-- `node.attrs` passed through verbatim (image resolver) -/
  | fromAttrs (a : Option Attrs)
  /-- `{ href, target }` built by the link mark resolver -/
  | link (href : PVal) (target : PVal)
  /-- `{ className: ... }` (code element of code_block, styled mark) -/
  | className (c : PVal)
  /-- `{ style: { backgroundColor: ... } }` (highlight mark) -/
  | styleBg (c : PVal)
  /-- `{ style: { color: ... } }` (textStyle mark) -/
  | styleColor (c : PVal)
  /-- `{ id: ... }` (anchor mark) -/
  | idProp (i : PVal)
  /-- `{ data-type: 'emoji', data-name: name, emoji: emoji }` -/
  | emojiProps (name : PVal) (emoji : PVal)
  /-- fallback `<img src draggable='false' loading='lazy' align='absmiddle' alt>` -/
  | emojiFallback (src : PVal) (alt : PVal)
deriving Repr, DecidableEq

/-- A rendered value: JS nullish, a string, an array of rendered values, or
a React element `(tag, props, key, children)`. -/
inductive RVal where
  | null
  | str (s : String)
  | arr (xs : List RVal)
  | elem (tag : String) (props : RProps) (key : Option Nat) (children : RVal)

/-- `v != null` is false exactly on nullish values. -/
def RVal.isNullish : RVal → Bool
  | .null => true
  | _ => false

/-- `React.isValidElement`. -/
def isValidElement : RVal → Bool
  | .elem _ _ _ _ => true
  | _ => false

/-- `addKey`: `React.isValidElement(element) ?
React.cloneElement(element, { key: currentKey++ }) : element`.
Returns the (possibly re-keyed) value and the new counter. -/
def addKey (v : RVal) (k : Nat) : RVal × Nat :=
  match v with
  | .elem t p _ c => (.elem t p (some k) c, k + 1)
  | _ => (v, k)

/-- A node resolver `(children, attrs) => element`; `Except` models a JS
TypeError raised inside the resolver (e.g. `props.level` on `undefined`). -/
abbrev NodeResolver := RVal → Option Attrs → Except String RVal

/-- A mark resolver `(children, attrs) => element` (the defaults are total). -/
abbrev MarkResolver := RVal → Option Attrs → RVal

/-- A blok resolver `(props) => element`. -/
abbrev BlokResolver := BlokProps → RVal

/-! ### Default node resolvers -/

/-- `simpleNodeResolver(element)`:
`children != null ? React.createElement(element, null, children) : null`. -/
def simpleNodeResolver (element : String) : NodeResolver := fun children _ =>
  .ok (if children.isNullish then RVal.null
       else RVal.elem element RProps.jsnull none children)

/-- `emptyNodeResolver(element)`: `() => React.createElement(element)`. -/
def emptyNodeResolver (element : String) : NodeResolver := fun _ _ =>
  .ok (RVal.elem element RProps.jsnull none RVal.null)

/-- `headingNodeResolver`: `React.createElement('h' + props.level, null,
children)`; reading `props.level` throws when `attrs` is absent. -/
def headingNodeResolver : NodeResolver := fun children attrs =>
  match attrs with
  | none => .error "TypeError: cannot read level of undefined"
  | some a => .ok (RVal.elem (headingTag a.level) RProps.jsnull none children)

/-- `imageNodeResolver`: `React.createElement('img', props, children)` with
`props = node.attrs` passed through verbatim (fine even when absent). -/
def imageNodeResolver : NodeResolver := fun children attrs =>
  .ok (RVal.elem "img" (RProps.fromAttrs attrs) none children)

/-- `codeblockNodeResolver`: a `code` element with `className: props.class`
nested in a `pre`; reading `props.class` throws when `attrs` is absent. -/
def codeblockNodeResolver : NodeResolver := fun children attrs =>
  match attrs with
  | none => .error "TypeError: cannot read class of undefined"
  | some a =>
      .ok (RVal.elem "pre" RProps.jsnull none
        (RVal.elem "code" (RProps.className (ov a.cls)) none children))

/-- JS truthiness of an optional string attribute ("" is falsy). -/
def strTruthy : Option String → Bool
  | some s => s ≠ ""
  | none => false

/-- `emojiNodeResolver`: `null` when `attrs` is absent; otherwise a span
with emoji metadata, nesting a fallback image when no glyph is given. -/
def emojiNodeResolver : NodeResolver := fun _ attrs =>
  match attrs with
  | none => .ok RVal.null
  | some a =>
      let props := RProps.emojiProps (ov a.name) (ov a.emoji)
      if strTruthy a.emoji || !strTruthy a.fallbackImage then
        .ok (RVal.elem "span" props none
          (match a.emoji with
           | some s => RVal.str s
           | none => RVal.null))
      else
        .ok (RVal.elem "span" props none
          (RVal.elem "img" (RProps.emojiFallback (ov a.fallbackImage) (ov a.name))
            none RVal.null))

/-! ### Default mark resolvers -/

/-- `simpleMarkResolver(element)`: `React.createElement(element, null, children)`. -/
def simpleMarkResolver (element : String) : MarkResolver := fun children _ =>
  RVal.elem element RProps.jsnull none children

/-- `linkMarkResolver`: props `{ href, target }` when `attrs` is present
(`mailto:` prefix when `attrs.linktype === 'email'`), else props `{}`. -/
def linkMarkResolver : MarkResolver := fun children attrs =>
  match attrs with
  | none => RVal.elem "a" RProps.pempty none children
  | some a =>
      let href := if a.linktype = some "email"
        then PVal.str ("mailto:" ++ jsTemplate a.href)
        else ov a.href
      RVal.elem "a" (RProps.link href (ov a.target)) none children

/-- `styledMarkResolver`: `{ className: attrs.class }` when `attrs` is
present, else `{}`. -/
def styledMarkResolver : MarkResolver := fun children attrs =>
  match attrs with
  | none => RVal.elem "span" RProps.pempty none children
  | some a => RVal.elem "span" (RProps.className (ov a.cls)) none children

/-- `highlightMarkResolver`: `{ style: { backgroundColor: attrs.color } }`. -/
def highlightMarkResolver : MarkResolver := fun children attrs =>
  match attrs with
  | none => RVal.elem "span" RProps.pempty none children
  | some a => RVal.elem "span" (RProps.styleBg (ov a.color)) none children

/-- `textStyleMarkResolver`: `{ style: { color: attrs.color } }`. -/
def textStyleMarkResolver : MarkResolver := fun children attrs =>
  match attrs with
  | none => RVal.elem "span" RProps.pempty none children
  | some a => RVal.elem "span" (RProps.styleColor (ov a.color)) none children

/-- `anchorMarkResolver`: `{ id: attrs.id }`. -/
def anchorMarkResolver : MarkResolver := fun children attrs =>
  match attrs with
  | none => RVal.elem "span" RProps.pempty none children
  | some a => RVal.elem "span" (RProps.idProp (ov a.id)) none children

/-- The built-in node resolver table `defaultNodeResolvers`. -/
def defaultNodeResolvers (t : String) : Option NodeResolver :=
  if t = "heading" then some headingNodeResolver
  else if t = "code_block" then some codeblockNodeResolver
  else if t = "image" then some imageNodeResolver
  else if t = "paragraph" then some (simpleNodeResolver "p")
  else if t = "blockquote" then some (simpleNodeResolver "blockquote")
  else if t = "ordered_list" then some (simpleNodeResolver "ol")
  else if t = "bullet_list" then some (simpleNodeResolver "ul")
  else if t = "list_item" then some (simpleNodeResolver "li")
  else if t = "horizontal_rule" then some (emptyNodeResolver "hr")
  else if t = "hard_break" then some (emptyNodeResolver "br")
  else if t = "emoji" then some emojiNodeResolver
  else none

/-- The built-in mark resolver table `defaultMarkResolvers`. -/
def defaultMarkResolvers (t : String) : Option MarkResolver :=
  if t = "link" then some linkMarkResolver
  else if t = "styled" then some styledMarkResolver
  else if t = "bold" then some (simpleMarkResolver "b")
  else if t = "italic" then some (simpleMarkResolver "i")
  else if t = "strike" then some (simpleMarkResolver "s")
  else if t = "underline" then some (simpleMarkResolver "u")
  else if t = "code" then some (simpleMarkResolver "code")
  else if t = "subscript" then some (simpleMarkResolver "sub")
  else if t = "superscript" then some (simpleMarkResolver "sup")
  else if t = "highlight" then some highlightMarkResolver
  else if t = "textStyle" then some textStyleMarkResolver
  else if t = "anchor" then some anchorMarkResolver
  else none

/-! ### Options and the per-call configuration -/

/-- The recognised fields of the `options` argument of `render`, each with
its source default.  Resolver tables map a tag to `none` when the caller
did not supply an entry for it. -/
structure RenderOptions where
  blokResolvers : String → Option BlokResolver := fun _ => none
  defaultBlokResolver : String → BlokProps → RVal := fun _ _ => RVal.null
  nodeResolvers : String → Option NodeResolver := fun _ => none
  markResolvers : String → Option MarkResolver := fun _ => none
  textResolver : Option String → RVal := fun t =>
    match t with
    | some s => RVal.str s
    | none => RVal.null
  defaultStringResolver : RVal → RVal := id

/-- What `renderNode`/`renderNodes` close over: blok resolvers, the merged
(effective) node and mark registries, and the text resolver.  Note that
`defaultStringResolver` is not part of it. -/
structure RenderConfig where
  blokResolvers : String → Option BlokResolver
  defaultBlokResolver : String → BlokProps → RVal
  nodeResolvers : String → Option NodeResolver
  markResolvers : String → Option MarkResolver
  textResolver : Option String → RVal

/-- `{ ...defaults, ...custom }`: a caller entry replaces the built-in one. -/
def mergeResolvers {α : Type} (defaults custom : String → Option α)
    (t : String) : Option α :=
  match custom t with
  | some r => some r
  | none => defaults t

/-- The configuration `render` builds from its `options` argument. -/
def RenderOptions.toConfig (o : RenderOptions) : RenderConfig where
  blokResolvers := o.blokResolvers
  defaultBlokResolver := o.defaultBlokResolver
  nodeResolvers := mergeResolvers defaultNodeResolvers o.nodeResolvers
  markResolvers := mergeResolvers defaultMarkResolvers o.markResolvers
  textResolver := o.textResolver

/-! ### The renderer -/

/-- `body.map(({ component, ...props }) => addKey(resolver ? resolver(props)
: defaultBlokResolver(component, props)))` with the key counter threaded
left to right. -/
def renderBloks (cfg : RenderConfig) : List BlokRecord → Nat → List RVal × Nat
  | [], k => ([], k)
  | r :: rest, k =>
      let element := match cfg.blokResolvers r.component with
        | some f => f r.props
        | none => cfg.defaultBlokResolver r.component r.props
      let (v, k1) := addKey element k
      let (vs, k2) := renderBloks cfg rest k1
      (v :: vs, k2)

/-- `marks.reduceRight((children, mark) => resolver ?
addKey(resolver(children, mark.attrs)) : children, childNode)`: the last
mark of the list is applied first (innermost), the first mark last
(outermost); the key counter follows the same order. -/
def foldMarks (cfg : RenderConfig) : List Mark → RVal → Nat → RVal × Nat
  | [], child, k => (child, k)
  | m :: rest, child, k =>
      let (inner, k1) := foldMarks cfg rest child k
      match cfg.markResolvers m.type with
      | some r => addKey (r inner m.attrs) k1
      | none => (inner, k1)

mutual

/-- `renderNode` of the extended variant: blok nodes expand their
`attrs.body`; every other node computes `childNode` (the text payload via
`textResolver` for text nodes, the keyed resolver output otherwise, `null`
when the type has no effective resolver) and then folds its marks
right-to-left over it. -/
def renderNode (cfg : RenderConfig) (node : Node) (k : Nat) :
    Except String (RVal × Nat) :=
  match node with
  | .mk t a c m tx =>
    if t = "blok" then
      match a with
      | none => .error "TypeError: cannot destructure body of undefined"
      | some attrs =>
          match attrs.body with
          | none => .error "TypeError: cannot read map of undefined"
          | some body =>
              let (vs, k1) := renderBloks cfg body k
              .ok (RVal.arr vs, k1)
    else do
      let (childNode, k1) ←
        if t = "text" then
          pure (cfg.textResolver tx, k)
        else
          match cfg.nodeResolvers t with
          | some r => do
              let (children, k1) ← renderNodes cfg c k
              let v ← r children a
              pure (addKey v k1)
          | none => pure (RVal.null, k)
      pure (foldMarks cfg (m.getD []) childNode k1)

/-- `renderNodes`: `null` for an absent sequence; otherwise map
`renderNode`, filter out nullish results, and collapse an empty result
array to `null`. -/
def renderNodes (cfg : RenderConfig) (nodes : Option (List Node)) (k : Nat) :
    Except String (RVal × Nat) :=
  match nodes with
  | none => .ok (RVal.null, k)
  | some ns => do
      let (vs, k1) ← renderNodesGo cfg ns k
      let elements := vs.filter (fun v => !v.isNullish)
      pure (if elements.isEmpty then RVal.null else RVal.arr elements, k1)

/-- `nodes.map(renderNode)` with the key counter threaded left to right. -/
def renderNodesGo (cfg : RenderConfig) (nodes : List Node) (k : Nat) :
    Except String (List RVal × Nat) :=
  match nodes with
  | [] => .ok ([], k)
  | n :: rest => do
      let (v, k1) ← renderNode cfg n k
      let (vs, k2) ← renderNodesGo cfg rest k1
      pure (v :: vs, k2)

end

/-- The possible JS values handed to `render` as its first argument:
`jnull` is the JS `null` (for which `typeof document === 'object'` holds
but every property access throws); `obj` is any other object or array,
with `dtype` its `type` property and `content` its `content` property when
that is an array; `strIn` a string; `other` anything of a different
`typeof` (number, boolean, undefined, function). -/
inductive Input where
  | jnull
  | obj (dtype : Option String) (content : Option (List Node))
  | strIn (s : String)
  | other

/-- `render(document, options)`. -/
def render (document : Input) (options : RenderOptions) : Except String RVal :=
  match document with
  | .jnull => .error "TypeError: cannot read type of null"
  | .obj dtype content =>
      match dtype, content with
      | some "doc", some cs =>
          (renderNodes options.toConfig (some cs) 0).map Prod.fst
      | _, _ => .ok RVal.null
  | .strIn s => .ok (options.defaultStringResolver (options.textResolver (some s)))
  | .other => .ok RVal.null

/-! ### Derived notions used by the theorems -/

/-- `render(document)` with the empty options object. -/
def defaultOptions : RenderOptions := {}

/-- The configuration `render` builds from empty options: the built-in
registries, identity text resolver, always-`null` default blok resolver. -/
def defaultConfig : RenderConfig := defaultOptions.toConfig

/-- Lines 72–75 of the source: one blok record is resolved via
`blokResolvers[component]` when present, else via
`defaultBlokResolver(component, props)`. -/
def resolveBlok (cfg : RenderConfig) (r : BlokRecord) : RVal :=
  match cfg.blokResolvers r.component with
  | some f => f r.props
  | none => cfg.defaultBlokResolver r.component r.props

/-- Forget the top-level React key of a value (used to state what a value
is up to the key stamped on it). -/
def stripTopKey : RVal → RVal
  | .elem t p _ c => .elem t p none c
  | v => v

mutual

/-- All React keys stamped anywhere in a rendered value, outermost first. -/
def keysOf : RVal → List Nat
  | .null => []
  | .str _ => []
  | .arr xs => keysOfList xs
  | .elem _ _ kk c => (match kk with | some n => [n] | none => []) ++ keysOf c

/-- All React keys stamped anywhere in a list of rendered values. -/
def keysOfList : List RVal → List Nat
  | [] => []
  | v :: vs => keysOf v ++ keysOfList vs

end

/-- The top-level key of a value, when it is an element that carries one. -/
def topKeyNone : RVal → Prop
  | .elem _ _ kk _ => kk = none
  | _ => True

/-! ### C1: right-to-left mark fold on text nodes -/

theorem foldMarks_append_last (cfg : RenderConfig) (ms : List Mark) (m : Mark)
    (child : RVal) (k : Nat) :
    foldMarks cfg (ms ++ [m]) child k =
      (match cfg.markResolvers m.type with
       | some r =>
           foldMarks cfg ms (addKey (r child m.attrs) k).1 (addKey (r child m.attrs) k).2
       | none => foldMarks cfg ms child k) := by
  induction ms with
  | nil => simp [foldMarks]
  | cons a rest ih =>
      cases h : cfg.markResolvers m.type <;> simp only [h] at ih <;>
        cases h2 : cfg.markResolvers a.type <;>
          simp [List.cons_append, foldMarks, ih, h, h2]

/-- C1: for every text node with marks `[m1, ..., mn]`, `renderNode` folds
the marks right-to-left over the `textResolver`-transformed text payload:
the last mark is applied first (innermost) and the first mark last
(outermost), each step receiving the accumulated content and that mark's
attrs.  In particular for marks `[A, B]`, resolver B is invoked first, on
the transformed payload, and resolver A's children argument is resolver
B's output. -/
theorem renderNode_text_mark_fold :
    (∀ (cfg : RenderConfig) (a : Option Attrs) (c : Option (List Node))
        (tx : Option String) (ms : List Mark) (k : Nat),
      renderNode cfg (Node.mk "text" a c (some ms) tx) k
        = .ok (foldMarks cfg ms (cfg.textResolver tx) k))
    ∧ (∀ (cfg : RenderConfig) (ms : List Mark) (m : Mark) (child : RVal) (k : Nat),
      foldMarks cfg (ms ++ [m]) child k =
        (match cfg.markResolvers m.type with
         | some r =>
             foldMarks cfg ms (addKey (r child m.attrs) k).1 (addKey (r child m.attrs) k).2
         | none => foldMarks cfg ms child k))
    ∧ (∀ (cfg : RenderConfig) (A B : Mark) (rA rB : MarkResolver)
        (a : Option Attrs) (c : Option (List Node)) (tx : Option String) (k : Nat),
      cfg.markResolvers A.type = some rA →
      cfg.markResolvers B.type = some rB →
      renderNode cfg (Node.mk "text" a c (some [A, B]) tx) k
        = .ok (addKey (rA (addKey (rB (cfg.textResolver tx) B.attrs) k).1 A.attrs)
                (addKey (rB (cfg.textResolver tx) B.attrs) k).2)) := by
  refine ⟨?_, foldMarks_append_last, ?_⟩
  · intro cfg a c tx ms k
    simp only [renderNode]
    rfl
  · intro cfg A B rA rB a c tx k hA hB
    simp only [renderNode, foldMarks, hA, hB]
    rfl

theorem renderNode_text_mark_fold_witness :
    renderNode defaultConfig
        (Node.mk "text" none none (some [{type := "bold"}, {type := "italic"}]) (some "t")) 0
      = .ok (addKey (simpleMarkResolver "b"
              (addKey (simpleMarkResolver "i" (defaultConfig.textResolver (some "t")) none) 0).1 none)
            (addKey (simpleMarkResolver "i" (defaultConfig.textResolver (some "t")) none) 0).2) :=
  renderNode_text_mark_fold.2.2 defaultConfig {type := "bold"} {type := "italic"}
    (simpleMarkResolver "b") (simpleMarkResolver "i") none none (some "t") 0 rfl rfl

/-! ### C8: the link mark resolver -/

/-- C8: the default link mark resolver produces a hyperlink whose `href`
equals `attrs.href`, except when `attrs.linktype === "email"`, where it is
`"mailto:"` prefixed to `attrs.href`; `target` is passed through verbatim;
with absent attrs the hyperlink carries no attributes.  In particular
attrs `{linktype:"email", href:"a@b.com"}` yield href `"mailto:a@b.com"`. -/
theorem linkMarkResolver_href :
    defaultMarkResolvers "link" = some linkMarkResolver
    ∧ (∀ (children : RVal) (a : Attrs), a.linktype = some "email" →
        linkMarkResolver children (some a)
          = RVal.elem "a" (RProps.link (PVal.str ("mailto:" ++ jsTemplate a.href))
              (ov a.target)) none children)
    ∧ (∀ (children : RVal) (a : Attrs), a.linktype ≠ some "email" →
        linkMarkResolver children (some a)
          = RVal.elem "a" (RProps.link (ov a.href) (ov a.target)) none children)
    ∧ (∀ children : RVal,
        linkMarkResolver children none = RVal.elem "a" RProps.pempty none children)
    ∧ (∀ children : RVal,
        linkMarkResolver children (some {linktype := some "email", href := some "a@b.com"})
          = RVal.elem "a" (RProps.link (PVal.str "mailto:a@b.com") PVal.undef) none children) := by
  refine ⟨rfl, ?_, ?_, fun _ => rfl, fun _ => rfl⟩
  · intro children a h
    simp [linkMarkResolver, h]
  · intro children a h
    simp [linkMarkResolver, h]

theorem linkMarkResolver_href_witness :
    linkMarkResolver (RVal.str "mail") (some {linktype := some "email", href := some "a@b.com"})
      = RVal.elem "a" (RProps.link (PVal.str ("mailto:" ++ jsTemplate (some "a@b.com")))
          (ov none)) none (RVal.str "mail") :=
  linkMarkResolver_href.2.1 (RVal.str "mail") {linktype := some "email", href := some "a@b.com"} rfl

/-! ### C9: string inputs and the string resolvers -/

/-- C9: for a string input `s`, `render` returns
`defaultStringResolver(textResolver(s))` (text resolver first); both
default to the identity, so `render(s)` with empty options is `s`
unchanged; and `defaultStringResolver` is never consulted for doc-shaped
inputs (changing it cannot change the result). -/
theorem render_string_input :
    (∀ (s : String) (o : RenderOptions),
      render (Input.strIn s) o = .ok (o.defaultStringResolver (o.textResolver (some s))))
    ∧ (∀ s : String, render (Input.strIn s) defaultOptions = .ok (RVal.str s))
    ∧ (∀ (dtype : Option String) (content : Option (List Node))
        (o : RenderOptions) (f : RVal → RVal),
      render (Input.obj dtype content) {o with defaultStringResolver := f}
        = render (Input.obj dtype content) o) :=
  ⟨fun _ _ => rfl, fun _ => rfl, fun _ _ _ _ => rfl⟩

/-! ### C3: empty containers prune to null -/

/-- A closed counterexample to C3 as stated: heading is a container kind,
yet a heading node with empty `content` renders to an empty `h1` element,
not to `null` — `headingNodeResolver` (like `codeblockNodeResolver`) has
no null-children check. -/
theorem heading_empty_content_renders_empty_element :
    renderNode defaultConfig
        (Node.mk "heading" (some {level := some 1}) (some []) none none) 0
      = .ok (RVal.elem "h1" RProps.jsnull (some 0) RVal.null, 1)
    ∧ defaultNodeResolvers "heading" = some headingNodeResolver
    ∧ RVal.elem "h1" RProps.jsnull (some 0) RVal.null ≠ RVal.null := by
  refine ⟨rfl, rfl, ?_⟩
  intro h
  cases h

/-- C3 (amended): the empty-pruning holds for the five simple container
kinds — paragraph, blockquote, ordered_list, bullet_list, list_item: each
of their resolvers returns `null` on `null` children, and a node of one
of these kinds whose rendered children are `null` (in particular, whose
`content` is the empty sequence, or whose every child renders to `null`
so that `renderNodes` collapses to `null`) itself renders to `null`
rather than to an empty container element.  (As originally stated, over
every container kind, the claim fails: heading and code_block containers
have no null-children check and render an empty element instead.) -/
theorem container_empty_prunes_to_null :
    ∀ p : String × String,
      p ∈ [("paragraph", "p"), ("blockquote", "blockquote"), ("ordered_list", "ol"),
           ("bullet_list", "ul"), ("list_item", "li")] →
      defaultNodeResolvers p.1 = some (simpleNodeResolver p.2)
      ∧ (∀ a : Option Attrs, simpleNodeResolver p.2 RVal.null a = .ok RVal.null)
      ∧ (∀ (a : Option Attrs) (c : Option (List Node)) (k k' : Nat),
          renderNodes defaultConfig c k = .ok (RVal.null, k') →
          renderNode defaultConfig (Node.mk p.1 a c none none) k = .ok (RVal.null, k'))
      ∧ (∀ (a : Option Attrs) (k : Nat),
          renderNode defaultConfig (Node.mk p.1 a (some []) none none) k
            = .ok (RVal.null, k)) := by
  intro p hp
  have step : ∀ t tag, t ≠ "blok" → t ≠ "text" →
      defaultNodeResolvers t = some (simpleNodeResolver tag) →
      (∀ (a : Option Attrs) (c : Option (List Node)) (k k' : Nat),
        renderNodes defaultConfig c k = .ok (RVal.null, k') →
        renderNode defaultConfig (Node.mk t a c none none) k = .ok (RVal.null, k')) := by
    intro t tag ht1 ht2 hres a c k k' h
    have hcfg : defaultConfig.nodeResolvers t = some (simpleNodeResolver tag) := by
      simp [defaultConfig, defaultOptions, RenderOptions.toConfig, mergeResolvers, hres]
    simp only [renderNode, ht1, ht2, hcfg, h, if_neg, ite_false]
    rfl
  have base : ∀ (k : Nat), renderNodes defaultConfig (some ([] : List Node)) k
      = .ok (RVal.null, k) := fun _ => rfl
  fin_cases hp
  · exact ⟨rfl, fun _ => rfl, step "paragraph" "p" (by decide) (by decide) rfl,
      fun a k => step "paragraph" "p" (by decide) (by decide) rfl a (some []) k k (base k)⟩
  · exact ⟨rfl, fun _ => rfl, step "blockquote" "blockquote" (by decide) (by decide) rfl,
      fun a k => step "blockquote" "blockquote" (by decide) (by decide) rfl a (some []) k k (base k)⟩
  · exact ⟨rfl, fun _ => rfl, step "ordered_list" "ol" (by decide) (by decide) rfl,
      fun a k => step "ordered_list" "ol" (by decide) (by decide) rfl a (some []) k k (base k)⟩
  · exact ⟨rfl, fun _ => rfl, step "bullet_list" "ul" (by decide) (by decide) rfl,
      fun a k => step "bullet_list" "ul" (by decide) (by decide) rfl a (some []) k k (base k)⟩
  · exact ⟨rfl, fun _ => rfl, step "list_item" "li" (by decide) (by decide) rfl,
      fun a k => step "list_item" "li" (by decide) (by decide) rfl a (some []) k k (base k)⟩

theorem container_empty_prunes_to_null_witness :
    renderNode defaultConfig (Node.mk "paragraph" none (some []) none none) 0
      = .ok (RVal.null, 0) :=
  (container_empty_prunes_to_null ("paragraph", "p") (by simp)).2.2.2 none 0

/-! ### C5: blok nodes expand their body -/

theorem renderBloks_length (cfg : RenderConfig) (body : List BlokRecord) (k : Nat) :
    (renderBloks cfg body k).1.length = body.length := by
  induction body generalizing k with
  | nil => rfl
  | cons r rest ih => simp [renderBloks, ih]

theorem stripTopKey_addKey (v : RVal) (k : Nat) :
    stripTopKey (addKey v k).1 = stripTopKey v := by
  cases v <;> rfl

theorem renderBloks_resolves_each (cfg : RenderConfig) (body : List BlokRecord) (k : Nat) :
    (renderBloks cfg body k).1.map stripTopKey
      = body.map (fun r => stripTopKey (resolveBlok cfg r)) := by
  induction body generalizing k with
  | nil => rfl
  | cons r rest ih =>
      simp only [renderBloks, resolveBlok, List.map_cons, ih, stripTopKey_addKey]

/-- C5: a blok node whose `attrs.body` lists N component records renders to
the ordered sequence of the N resolved outputs (one per record, keyed in
body order); the sequence has exactly N entries, each record resolved
independently via `blokResolvers[component]` when present else
`defaultBlokResolver(component, props)`; N = 0 yields the empty sequence,
which contributes no outputs at that position of the parent. -/
theorem blok_expands_body :
    (∀ (cfg : RenderConfig) (a : Attrs) (body : List BlokRecord)
        (c : Option (List Node)) (m : Option (List Mark)) (tx : Option String) (k : Nat),
      a.body = some body →
      renderNode cfg (Node.mk "blok" (some a) c m tx) k
        = .ok (RVal.arr (renderBloks cfg body k).1, (renderBloks cfg body k).2))
    ∧ (∀ (cfg : RenderConfig) (body : List BlokRecord) (k : Nat),
        (renderBloks cfg body k).1.length = body.length)
    ∧ (∀ (cfg : RenderConfig) (body : List BlokRecord) (k : Nat),
        (renderBloks cfg body k).1.map stripTopKey
          = body.map (fun r => stripTopKey (resolveBlok cfg r)))
    ∧ (∀ (cfg : RenderConfig) (a : Attrs)
        (c : Option (List Node)) (m : Option (List Mark)) (tx : Option String) (k : Nat),
      a.body = some [] →
      renderNode cfg (Node.mk "blok" (some a) c m tx) k = .ok (RVal.arr [], k)) := by
  refine ⟨?_, renderBloks_length, renderBloks_resolves_each, ?_⟩
  · intro cfg a body c m tx k h
    simp [renderNode, h]
  · intro cfg a c m tx k h
    simp [renderNode, h, renderBloks]

theorem blok_expands_body_witness :
    renderNode defaultConfig
        (Node.mk "blok" (some {body := some [⟨"x", []⟩, ⟨"y", []⟩]}) none none none) 0
      = .ok (RVal.arr (renderBloks defaultConfig [⟨"x", []⟩, ⟨"y", []⟩] 0).1,
          (renderBloks defaultConfig [⟨"x", []⟩, ⟨"y", []⟩] 0).2) :=
  blok_expands_body.1 defaultConfig {body := some [⟨"x", []⟩, ⟨"y", []⟩]}
    [⟨"x", []⟩, ⟨"y", []⟩] none none none 0 rfl

/-! ### C4: unknown tags are skipped -/

/-- The `.filter(node => node != null)` step of `renderNodes`. -/
def filtNN (vs : List RVal) : List RVal := vs.filter (fun v => !v.isNullish)

theorem exceptMap_map {ε α β γ : Type} (e : Except ε α) (f : α → β) (g : β → γ) :
    (e.map f).map g = e.map (fun a => g (f a)) := by
  cases e <;> rfl

theorem renderNodes_as_map (cfg : RenderConfig) (l : List Node) (k : Nat) :
    renderNodes cfg (some l) k
      = (renderNodesGo cfg l k).map (fun p =>
          (if (filtNN p.1).isEmpty then RVal.null else RVal.arr (filtNN p.1), p.2)) := by
  simp only [renderNodes, filtNN]
  cases h : renderNodesGo cfg l k with
  | error e => rfl
  | ok p => rfl

theorem except_ok_bind {ε α β : Type} (a : α) (f : α → Except ε β) :
    ((Except.ok a : Except ε α) >>= f) = f a := rfl

theorem except_error_bind {ε α β : Type} (e : ε) (f : α → Except ε β) :
    ((Except.error e : Except ε α) >>= f) = .error e := rfl

theorem filtNN_cons_null (vs : List RVal) : filtNN (RVal.null :: vs) = filtNN vs := rfl

theorem renderNodesGo_skip (cfg : RenderConfig) (n : Node)
    (hn : ∀ k, renderNode cfg n k = .ok (RVal.null, k)) :
    ∀ (pre post : List Node) (k : Nat),
      (renderNodesGo cfg (pre ++ n :: post) k).map (fun p => (filtNN p.1, p.2))
        = (renderNodesGo cfg (pre ++ post) k).map (fun p => (filtNN p.1, p.2)) := by
  intro pre post
  induction pre with
  | nil =>
      intro k
      simp only [List.nil_append, renderNodesGo, hn, except_ok_bind]
      cases h : renderNodesGo cfg post k with
      | error e => simp [h, Except.map]
      | ok p => simp [h, Except.map, filtNN_cons_null]
  | cons q rest ih =>
      intro k
      simp only [List.cons_append, renderNodesGo]
      cases hq : renderNode cfg q k with
      | error e => simp [hq, except_error_bind, Except.map]
      | ok p =>
          obtain ⟨v, k1⟩ := p
          simp only [hq, except_ok_bind]
          have hih := ih k1
          cases h1 : renderNodesGo cfg (rest ++ n :: post) k1 with
          | error e =>
              rw [h1] at hih
              cases h2 : renderNodesGo cfg (rest ++ post) k1 with
              | error e2 =>
                  rw [h2] at hih
                  simp only [Except.map] at hih
                  simp [h1, h2, Except.map, hih]
              | ok p2 =>
                  rw [h2] at hih
                  simp [Except.map] at hih
          | ok p1 =>
              obtain ⟨vs1, k2⟩ := p1
              rw [h1] at hih
              cases h2 : renderNodesGo cfg (rest ++ post) k1 with
              | error e2 =>
                  rw [h2] at hih
                  simp [Except.map] at hih
              | ok p2 =>
                  obtain ⟨vs2, k2'⟩ := p2
                  rw [h2] at hih
                  simp only [Except.map, Except.ok.injEq, Prod.mk.injEq, filtNN] at hih
                  simp [h1, h2, Except.map, filtNN, List.filter_cons, hih.1, hih.2]

/-- A fold over marks none of which has a resolver is the identity on the
accumulated content and on the key counter. -/
theorem foldMarks_noop : ∀ (cfg : RenderConfig) (ms : List Mark) (child : RVal) (k : Nat),
    (∀ m ∈ ms, cfg.markResolvers m.type = none) →
    foldMarks cfg ms child k = (child, k) := by
  intro cfg ms child k h
  induction ms with
  | nil => rfl
  | cons m rest ih =>
      have hm := h m (by simp)
      have hr := ih (fun m2 hm2 => h m2 (by simp [hm2]))
      simp [foldMarks, hr, hm]

/-- A closed counterexample to C4 as stated: the node
`{type:"zzz", marks:[{type:"bold"}]}` has no resolver for its type in the
effective (default) node registry, yet `renderNode` does not return null
for it — the resolvable `bold` mark wraps the null child instead. -/
theorem unknown_node_with_resolvable_mark_not_null :
    renderNode defaultConfig (Node.mk "zzz" none none (some [{type := "bold"}]) none) 0
      = .ok (RVal.elem "b" RProps.jsnull (some 0) RVal.null, 1)
    ∧ defaultConfig.nodeResolvers "zzz" = none
    ∧ RVal.elem "b" RProps.jsnull (some 0) RVal.null ≠ RVal.null := by
  refine ⟨rfl, rfl, ?_⟩
  intro h
  cases h

/-- C4 (amended): a node whose type tag has no resolver in the effective
node registry and which carries no resolvable mark renders to `null`, and
is absent from its parent's rendered sequence — the rendered sequence is
the one of the sibling list without it, with the remaining siblings in
their relative order (so it is one shorter than if the node had produced
output).  A mark whose type tag has no resolver is a no-op fold step: the
inner content passes through unwrapped, and a text node so marked still
renders its (textResolver-transformed) text.  (As originally stated the
claim fails only when such a node carries a resolvable mark: then the mark
wraps the null child and the node is not dropped.) -/
theorem unknown_tags_skipped :
    (∀ (cfg : RenderConfig) (t : String) (a : Option Attrs) (c : Option (List Node))
        (tx : Option String) (ms : List Mark) (k : Nat),
      cfg.nodeResolvers t = none → t ≠ "text" → t ≠ "blok" →
      (∀ m ∈ ms, cfg.markResolvers m.type = none) →
      renderNode cfg (Node.mk t a c (some ms) tx) k = .ok (RVal.null, k))
    ∧ (∀ (cfg : RenderConfig) (t : String) (a : Option Attrs) (c : Option (List Node))
        (tx : Option String) (k : Nat),
      cfg.nodeResolvers t = none → t ≠ "text" → t ≠ "blok" →
      renderNode cfg (Node.mk t a c none tx) k = .ok (RVal.null, k))
    ∧ (∀ (cfg : RenderConfig) (m : Mark) (rest : List Mark) (child : RVal) (k : Nat),
      cfg.markResolvers m.type = none →
      foldMarks cfg (m :: rest) child k = foldMarks cfg rest child k)
    ∧ (∀ (cfg : RenderConfig) (m : Mark) (a : Option Attrs) (c : Option (List Node))
        (tx : Option String) (k : Nat),
      cfg.markResolvers m.type = none →
      renderNode cfg (Node.mk "text" a c (some [m]) tx) k = .ok (cfg.textResolver tx, k))
    ∧ (∀ (cfg : RenderConfig) (t : String) (a : Option Attrs) (c : Option (List Node))
        (tx : Option String) (pre post : List Node) (k : Nat),
      cfg.nodeResolvers t = none → t ≠ "text" → t ≠ "blok" →
      renderNodes cfg (some (pre ++ Node.mk t a c none tx :: post)) k
        = renderNodes cfg (some (pre ++ post)) k) := by
  have noop := foldMarks_noop
  have nullNode : ∀ (cfg : RenderConfig) (t : String) (a : Option Attrs)
      (c : Option (List Node)) (tx : Option String) (ms : List Mark) (k : Nat),
      cfg.nodeResolvers t = none → t ≠ "text" → t ≠ "blok" →
      (∀ m ∈ ms, cfg.markResolvers m.type = none) →
      renderNode cfg (Node.mk t a c (some ms) tx) k = .ok (RVal.null, k) := by
    intro cfg t a c tx ms k hres ht hb hms
    simp only [renderNode, hres, if_neg hb, if_neg ht, pure_bind]
    rw [show (some ms).getD [] = ms from rfl, noop cfg ms RVal.null k hms]
    rfl
  refine ⟨nullNode, ?_, ?_, ?_, ?_⟩
  · intro cfg t a c tx k hres ht hb
    simp only [renderNode, hres, if_neg hb, if_neg ht]
    rfl
  · intro cfg m rest child k hm
    simp [foldMarks, hm]
  · intro cfg m a c tx k hm
    rw [show renderNode cfg (Node.mk "text" a c (some [m]) tx) k
        = .ok (foldMarks cfg [m] (cfg.textResolver tx) k) from rfl,
      noop cfg [m] (cfg.textResolver tx) k (by simpa using hm)]
  · intro cfg t a c tx pre post k hres ht hb
    have hn : ∀ k, renderNode cfg (Node.mk t a c none tx) k = .ok (RVal.null, k) := by
      intro k
      simp only [renderNode, hres, if_neg hb, if_neg ht, pure_bind]
      rfl
    have hskip := congrArg (Except.map (fun q : List RVal × Nat =>
        (if q.1.isEmpty then RVal.null else RVal.arr q.1, q.2)))
      (renderNodesGo_skip cfg (Node.mk t a c none tx) hn pre post k)
    rw [exceptMap_map, exceptMap_map] at hskip
    rw [renderNodes_as_map, renderNodes_as_map]
    exact hskip

theorem unknown_tags_skipped_witness :
    renderNodes defaultConfig
        (some ([Node.mk "paragraph" none (some [Node.mk "text" none none none (some "a")]) none none]
          ++ Node.mk "zzz" none none none none ::
            [Node.mk "paragraph" none (some [Node.mk "text" none none none (some "b")]) none none])) 0
      = renderNodes defaultConfig
        (some ([Node.mk "paragraph" none (some [Node.mk "text" none none none (some "a")]) none none]
          ++ [Node.mk "paragraph" none (some [Node.mk "text" none none none (some "b")]) none none])) 0 :=
  unknown_tags_skipped.2.2.2.2 defaultConfig "zzz" none none none
    [Node.mk "paragraph" none (some [Node.mk "text" none none none (some "a")]) none none]
    [Node.mk "paragraph" none (some [Node.mk "text" none none none (some "b")]) none none]
    0 rfl (by decide) (by decide)

/-! ### C7: non-doc inputs -/

/-- `true` exactly on results of the `.ok` form. -/
def isOkB {α : Type} : Except String α → Bool
  | .ok _ => true
  | .error _ => false

/-- A closed counterexample to C7 as stated: the input JS `null` is neither
a doc-shaped object nor a string, yet `render(null)` does not return null:
`typeof null === 'object'` passes the first guard and then reading
`document.type` on `null` raises a TypeError. -/
theorem render_null_input_throws :
    render Input.jnull defaultOptions = .error "TypeError: cannot read type of null"
    ∧ isOkB (render Input.jnull defaultOptions) = false := ⟨rfl, rfl⟩

/-- C7 (amended): for every input value that is neither an object with
`type === "doc"` and array-valued `content` nor a string — other than the
JS value `null`, on which `render` throws a TypeError — `render` returns
`null` without raising an error. -/
theorem render_nondoc_input_null :
    (∀ (dtype : Option String) (content : Option (List Node)) (o : RenderOptions),
      (dtype = some "doc" → content = none) →
      render (Input.obj dtype content) o = .ok RVal.null)
    ∧ (∀ o : RenderOptions, render Input.other o = .ok RVal.null) := by
  refine ⟨?_, fun _ => rfl⟩
  intro dtype content o h
  cases dtype with
  | none => rfl
  | some s =>
      by_cases hs : s = "doc"
      · subst hs
        cases content with
        | none => rfl
        | some cs => exact absurd (h rfl) (by simp)
      · simp only [render]
        split
        · simp_all
        · rfl

theorem render_nondoc_input_null_witness :
    render (Input.obj (some "paragraph") (some [])) defaultOptions = .ok RVal.null :=
  render_nondoc_input_null.1 (some "paragraph") (some []) defaultOptions
    (fun h => absurd h (by decide))

/-! ### C10: the mark fold applies to every non-blok node -/

/-- C10: in the extended variant the mark fold is applied to every non-blok
node, not only to text nodes: the resolved (and keyed) element of any
container or leaf node is further wrapped by its marks' resolvers
right-to-left exactly as for a text node (concretely: an image node with a
link mark renders as a hyperlink wrapping the keyed img element); and a
node whose resolver yields `null` carrying only unresolvable marks passes
through as `null`. -/
theorem mark_fold_applies_to_nonblok_nodes :
    (∀ (cfg : RenderConfig) (t : String) (a : Option Attrs) (c : Option (List Node))
        (ms : Option (List Mark)) (tx : Option String) (k : Nat) (r : NodeResolver),
      t ≠ "blok" → t ≠ "text" → cfg.nodeResolvers t = some r →
      renderNode cfg (Node.mk t a c ms tx) k
        = (renderNodes cfg c k).bind (fun p =>
            (r p.1 a).map (fun v =>
              foldMarks cfg (ms.getD []) (addKey v p.2).1 (addKey v p.2).2)))
    ∧ (renderNode defaultConfig
          (Node.mk "image" (some {src := some "u"}) none (some [{type := "link"}]) none) 0
        = .ok (RVal.elem "a" RProps.pempty (some 1)
            (RVal.elem "img" (RProps.fromAttrs (some {src := some "u"})) (some 0) RVal.null), 2))
    ∧ (∀ (cfg : RenderConfig) (ms : List Mark) (child : RVal) (k : Nat),
        (∀ m ∈ ms, cfg.markResolvers m.type = none) →
        foldMarks cfg ms child k = (child, k)) := by
  refine ⟨?_, rfl, foldMarks_noop⟩
  intro cfg t a c ms tx k r hb ht hres
  simp only [renderNode, if_neg hb, if_neg ht, hres]
  cases h1 : renderNodes cfg c k with
  | error e => rfl
  | ok p =>
      cases h2 : r p.1 a with
      | error e => simp [except_ok_bind, Except.bind, Except.map, h2]
      | ok v => simp [except_ok_bind, Except.bind, Except.map, h2]


/-! ### C6: failure semantics -/

/-- A closed counterexample to C6 as stated: a doc containing a heading
node with missing `attrs` makes `render` (with default resolvers) raise a
TypeError (`props.level` is read off `undefined`) instead of completing. -/
theorem heading_without_attrs_throws :
    render (Input.obj (some "doc") (some [Node.mk "heading" none (some []) none none]))
        defaultOptions
      = .error "TypeError: cannot read level of undefined"
    ∧ isOkB (render (Input.obj (some "doc")
          (some [Node.mk "heading" none (some []) none none])) defaultOptions) = false :=
  ⟨rfl, rfl⟩

mutual

/-- The attrs proviso under which the default resolvers cannot throw:
every heading / code_block node carries `attrs`, and every blok node
carries `attrs` with a `body` array.  Tags, marks, text and `content` are
unrestricted, and children are checked recursively. -/
def attrsSafe : Node → Bool
  | .mk t a c _ _ =>
      (if t = "heading" ∨ t = "code_block" then a.isSome else true)
      && (if t = "blok" then (match a with
            | some x => x.body.isSome
            | none => false) else true)
      && (match c with
          | none => true
          | some cs => attrsSafeList cs)
/-- `attrsSafe` for every node of a list. -/
def attrsSafeList : List Node → Bool
  | [] => true
  | n :: ns => attrsSafe n && attrsSafeList ns

end

/-- `attrsSafe` for an optional content list. -/
def attrsSafeOpt : Option (List Node) → Bool
  | none => true
  | some cs => attrsSafeList cs

/-- The blok-attrs conjunct of `attrsSafe`. -/
def blokAttrsOk : Option Attrs → Bool
  | some x => x.body.isSome
  | none => false

theorem attrsSafe_mk (t : String) (a : Option Attrs) (c : Option (List Node))
    (m : Option (List Mark)) (tx : Option String) :
    attrsSafe (Node.mk t a c m tx)
      = ((if t = "heading" ∨ t = "code_block" then a.isSome else true)
        && (if t = "blok" then blokAttrsOk a else true)
        && attrsSafeOpt c) := by
  cases a <;> cases c <;> rfl

theorem attrsSafe_parts (t : String) (a : Option Attrs) (c : Option (List Node))
    (m : Option (List Mark)) (tx : Option String)
    (h : attrsSafe (Node.mk t a c m tx) = true) :
    ((t = "heading" ∨ t = "code_block") → a.isSome = true)
    ∧ (t = "blok" → ∃ x, a = some x ∧ x.body.isSome = true)
    ∧ attrsSafeOpt c = true := by
  rw [attrsSafe_mk, Bool.and_eq_true, Bool.and_eq_true] at h
  obtain ⟨⟨ha, hb⟩, hc⟩ := h
  refine ⟨?_, ?_, hc⟩
  · intro hor
    rwa [if_pos hor] at ha
  · intro ht
    rw [if_pos ht] at hb
    cases a with
    | none => simp [blokAttrsOk] at hb
    | some x => exact ⟨x, rfl, hb⟩

/-- Every default node resolver succeeds on any children value, provided
heading and code_block nodes carry a present attrs object. -/
theorem default_node_total :
    ∀ (t : String) (r : NodeResolver), defaultNodeResolvers t = some r →
      ∀ (a : Option Attrs) (ch : RVal),
        ((t = "heading" ∨ t = "code_block") → a.isSome = true) →
        ∃ v, r ch a = .ok v := by
  intro t r h a ch ha
  by_cases h1 : t = "heading"
  · subst h1
    have h' : some headingNodeResolver = some r := h
    obtain rfl : headingNodeResolver = r := by injection h'
    obtain ⟨x, rfl⟩ : ∃ x, a = some x := by
      cases a with
      | some x => exact ⟨x, rfl⟩
      | none => exact absurd (ha (Or.inl rfl)) (by simp)
    exact ⟨_, rfl⟩
  · by_cases h2 : t = "code_block"
    · subst h2
      have h' : some codeblockNodeResolver = some r := by rw [← h]; simp [defaultNodeResolvers, h1]
      obtain rfl : codeblockNodeResolver = r := by injection h'
      obtain ⟨x, rfl⟩ : ∃ x, a = some x := by
        cases a with
        | some x => exact ⟨x, rfl⟩
        | none => exact absurd (ha (Or.inr rfl)) (by simp)
      exact ⟨_, rfl⟩
    · by_cases h3 : t = "image"
      · subst h3
        have h' : some imageNodeResolver = some r := by rw [← h]; simp [defaultNodeResolvers, h1, h2]
        obtain rfl : imageNodeResolver = r := by injection h'
        exact ⟨_, rfl⟩
      · by_cases h4 : t = "paragraph"
        · subst h4
          have h' : some (simpleNodeResolver "p") = some r := by
            rw [← h]; simp [defaultNodeResolvers, h1, h2, h3]
          obtain rfl : simpleNodeResolver "p" = r := by injection h'
          exact ⟨_, rfl⟩
        · by_cases h5 : t = "blockquote"
          · subst h5
            have h' : some (simpleNodeResolver "blockquote") = some r := by
              rw [← h]; simp [defaultNodeResolvers, h1, h2, h3, h4]
            obtain rfl : simpleNodeResolver "blockquote" = r := by injection h'
            exact ⟨_, rfl⟩
          · by_cases h6 : t = "ordered_list"
            · subst h6
              have h' : some (simpleNodeResolver "ol") = some r := by
                rw [← h]; simp [defaultNodeResolvers, h1, h2, h3, h4, h5]
              obtain rfl : simpleNodeResolver "ol" = r := by injection h'
              exact ⟨_, rfl⟩
            · by_cases h7 : t = "bullet_list"
              · subst h7
                have h' : some (simpleNodeResolver "ul") = some r := by
                  rw [← h]; simp [defaultNodeResolvers, h1, h2, h3, h4, h5, h6]
                obtain rfl : simpleNodeResolver "ul" = r := by injection h'
                exact ⟨_, rfl⟩
              · by_cases h8 : t = "list_item"
                · subst h8
                  have h' : some (simpleNodeResolver "li") = some r := by
                    rw [← h]; simp [defaultNodeResolvers, h1, h2, h3, h4, h5, h6, h7]
                  obtain rfl : simpleNodeResolver "li" = r := by injection h'
                  exact ⟨_, rfl⟩
                · by_cases h9 : t = "horizontal_rule"
                  · subst h9
                    have h' : some (emptyNodeResolver "hr") = some r := by
                      rw [← h]; simp [defaultNodeResolvers, h1, h2, h3, h4, h5, h6, h7, h8]
                    obtain rfl : emptyNodeResolver "hr" = r := by injection h'
                    exact ⟨_, rfl⟩
                  · by_cases h10 : t = "hard_break"
                    · subst h10
                      have h' : some (emptyNodeResolver "br") = some r := by
                        rw [← h]; simp [defaultNodeResolvers, h1, h2, h3, h4, h5, h6, h7, h8, h9]
                      obtain rfl : emptyNodeResolver "br" = r := by injection h'
                      exact ⟨_, rfl⟩
                    · by_cases h11 : t = "emoji"
                      · subst h11
                        have h' : some emojiNodeResolver = some r := by
                          rw [← h]
                          simp [defaultNodeResolvers, h1, h2, h3, h4, h5, h6, h7, h8, h9, h10]
                        obtain rfl : emojiNodeResolver = r := by injection h'
                        cases a with
                        | none => exact ⟨_, rfl⟩
                        | some x =>
                            simp only [emojiNodeResolver]
                            split
                            · exact ⟨_, rfl⟩
                            · exact ⟨_, rfl⟩
                      · exact absurd h (by
                          simp [defaultNodeResolvers, h1, h2, h3, h4, h5, h6, h7, h8, h9, h10, h11])

/-- With default options, `renderNode` succeeds on every `attrsSafe` node. -/
theorem renderNode_total :
    ∀ (n : Node) (k : Nat), attrsSafe n = true →
      ∃ p, renderNode defaultConfig n k = .ok p := by
  refine renderNode.induct defaultConfig
    (fun n k => attrsSafe n = true → ∃ p, renderNode defaultConfig n k = .ok p)
    (fun c k => attrsSafeOpt c = true → ∃ p, renderNodes defaultConfig c k = .ok p)
    (fun ns k => attrsSafeList ns = true → ∃ p, renderNodesGo defaultConfig ns k = .ok p)
    ?_ ?_ ?_ ?_ ?_ ?_ ?_ ?_ ?_ ?_
  · intro k c m tx h
    obtain ⟨x, hx, _⟩ := (attrsSafe_parts _ _ _ _ _ h).2.1 rfl
    cases hx
  · intro k c m tx a hbody h
    obtain ⟨x, hx, hb⟩ := (attrsSafe_parts _ _ _ _ _ h).2.1 rfl
    obtain rfl : a = x := by injection hx
    rw [hbody] at hb
    simp at hb
  · intro k c m tx a body hbody vs k2 hbloks h
    exact ⟨(RVal.arr (renderBloks defaultConfig body k).1, (renderBloks defaultConfig body k).2),
      by simp [renderNode, hbody]⟩
  · intro k a c m tx _ _
    exact ⟨_, rfl⟩
  · intro k t a c m tx hb ht r hres ih h
    obtain ⟨ha, _, hc⟩ := attrsSafe_parts _ _ _ _ _ h
    obtain ⟨⟨children, k1⟩, h1⟩ := ih hc
    obtain ⟨v, hv⟩ := default_node_total t r hres a children ha
    refine ⟨(foldMarks defaultConfig (m.getD []) (addKey v k1).1 (addKey v k1).2), ?_⟩
    simp only [renderNode, if_neg hb, if_neg ht, hres, h1, except_ok_bind, hv, pure_bind]
    rfl
  · intro k t a c m tx hb ht hres _
    refine ⟨(foldMarks defaultConfig (m.getD []) RVal.null k), ?_⟩
    simp only [renderNode, if_neg hb, if_neg ht, hres, pure_bind]
    rfl
  · intro k _
    exact ⟨_, rfl⟩
  · intro k ns ih h
    obtain ⟨⟨vs, k1⟩, hgo⟩ := ih h
    refine ⟨((if (vs.filter (fun v => !v.isNullish)).isEmpty then RVal.null
        else RVal.arr (vs.filter (fun v => !v.isNullish))), k1), ?_⟩
    simp only [renderNodes, hgo, except_ok_bind]
    rfl
  · intro k _
    exact ⟨_, rfl⟩
  · intro k n rest ih1 ih2 h
    rw [show attrsSafeList (n :: rest) = (attrsSafe n && attrsSafeList rest) from rfl,
      Bool.and_eq_true] at h
    obtain ⟨⟨v, k1⟩, h1⟩ := ih1 h.1
    obtain ⟨⟨vs, k2⟩, h2⟩ := ih2 k1 h.2
    exact ⟨(v :: vs, k2), by simp only [renderNodesGo, h1, except_ok_bind, h2, pure_bind]; rfl⟩

/-- With default options, `renderNodesGo` succeeds on `attrsSafe` lists. -/
theorem renderNodesGo_total :
    ∀ (ns : List Node) (k : Nat), attrsSafeList ns = true →
      ∃ p, renderNodesGo defaultConfig ns k = .ok p := by
  intro ns
  induction ns with
  | nil => exact fun k _ => ⟨_, rfl⟩
  | cons n rest ih =>
      intro k h
      rw [show attrsSafeList (n :: rest) = (attrsSafe n && attrsSafeList rest) from rfl,
        Bool.and_eq_true] at h
      obtain ⟨⟨v, k1⟩, h1⟩ := renderNode_total n k h.1
      obtain ⟨⟨vs, k2⟩, h2⟩ := ih k1 h.2
      exact ⟨(v :: vs, k2), by simp only [renderNodesGo, h1, except_ok_bind, h2, pure_bind]; rfl⟩

/-- C6 (amended): with the default resolvers, `render` never throws for
unknown node or mark tags, absent marks, or absent content: it completes
and degrades to null / pass-through — provided every heading and
code_block node carries an `attrs` object and every blok node carries
`attrs` with a `body` array.  (As originally stated the claim also covered
missing or malformed attrs, but a heading node without `attrs` makes the
default heading resolver read `props.level` off `undefined` and throw.) -/
theorem render_safe_doc_no_throw :
    ∀ (cs : List Node), attrsSafeList cs = true →
      ∃ v, render (Input.obj (some "doc") (some cs)) defaultOptions = .ok v := by
  intro cs h
  obtain ⟨⟨vs, k1⟩, hgo⟩ := renderNodesGo_total cs 0 h
  refine ⟨((if (vs.filter (fun v => !v.isNullish)).isEmpty then RVal.null
      else RVal.arr (vs.filter (fun v => !v.isNullish)))), ?_⟩
  simp only [render]
  rw [show defaultOptions.toConfig = defaultConfig from rfl]
  simp only [renderNodes, hgo, except_ok_bind, pure_bind, Except.map_ok]
  rfl

theorem render_safe_doc_no_throw_witness :
    ∃ v, render (Input.obj (some "doc")
        (some [Node.mk "unknown_tag" none none
            (some [{type := "bold"}, {type := "mystery"}]) none,
          Node.mk "paragraph" none
            (some [Node.mk "text" none none none (some "hi")]) none none])) defaultOptions
      = .ok v :=
  render_safe_doc_no_throw
    [Node.mk "unknown_tag" none none
        (some [{type := "bold"}, {type := "mystery"}]) none,
      Node.mk "paragraph" none
        (some [Node.mk "text" none none none (some "hi")]) none none]
    (by decide)

/-! ### C2: key uniqueness -/

/-- Every key of `v` lies in the half-open interval `[lo, hi)`. -/
def KeysIn (v : RVal) (lo hi : Nat) : Prop := ∀ j ∈ keysOf v, lo ≤ j ∧ j < hi

/-- Every key of the list `vs` lies in `[lo, hi)`. -/
def KeysInL (vs : List RVal) (lo hi : Nat) : Prop := ∀ j ∈ keysOfList vs, lo ≤ j ∧ j < hi

theorem keysOfList_cons (v : RVal) (vs : List RVal) :
    keysOfList (v :: vs) = keysOf v ++ keysOfList vs := rfl

theorem keysOf_elem (t : String) (p : RProps) (kk : Option Nat) (c : RVal) :
    keysOf (RVal.elem t p kk c)
      = (match kk with | some n => [n] | none => []) ++ keysOf c := rfl

theorem keysOf_elem_some (t : String) (p : RProps) (k : Nat) (c : RVal) :
    keysOf (RVal.elem t p (some k) c) = k :: keysOf c := rfl

theorem keysOf_elem_none (t : String) (p : RProps) (c : RVal) :
    keysOf (RVal.elem t p none c) = keysOf c := rfl

/-- Every default mark resolver wraps its children in a fresh unkeyed
element: the keys of the output are exactly those of the children, and the
output carries no top-level key (so `addKey` stamps a fresh one). -/
theorem default_mark_clean :
    ∀ (t : String) (r : MarkResolver), defaultMarkResolvers t = some r →
      ∀ (ch : RVal) (a : Option Attrs),
        keysOf (r ch a) = keysOf ch ∧ topKeyNone (r ch a) := by
  intro t r h ch a
  by_cases e1 : t = "link"
  · subst e1
    have h2 : some (linkMarkResolver) = some r := h
    obtain rfl : (linkMarkResolver) = r := by injection h2
    cases a <;>
      simp [simpleMarkResolver, linkMarkResolver, styledMarkResolver,
        highlightMarkResolver, textStyleMarkResolver, anchorMarkResolver,
        keysOf, topKeyNone]
  ·
    by_cases e2 : t = "styled"
    · subst e2
      have h2 : some (styledMarkResolver) = some r := h
      obtain rfl : (styledMarkResolver) = r := by injection h2
      cases a <;>
        simp [simpleMarkResolver, linkMarkResolver, styledMarkResolver,
          highlightMarkResolver, textStyleMarkResolver, anchorMarkResolver,
          keysOf, topKeyNone]
    ·
      by_cases e3 : t = "bold"
      · subst e3
        have h2 : some (simpleMarkResolver "b") = some r := h
        obtain rfl : (simpleMarkResolver "b") = r := by injection h2
        cases a <;>
          simp [simpleMarkResolver, linkMarkResolver, styledMarkResolver,
            highlightMarkResolver, textStyleMarkResolver, anchorMarkResolver,
            keysOf, topKeyNone]
      ·
        by_cases e4 : t = "italic"
        · subst e4
          have h2 : some (simpleMarkResolver "i") = some r := h
          obtain rfl : (simpleMarkResolver "i") = r := by injection h2
          cases a <;>
            simp [simpleMarkResolver, linkMarkResolver, styledMarkResolver,
              highlightMarkResolver, textStyleMarkResolver, anchorMarkResolver,
              keysOf, topKeyNone]
        ·
          by_cases e5 : t = "strike"
          · subst e5
            have h2 : some (simpleMarkResolver "s") = some r := h
            obtain rfl : (simpleMarkResolver "s") = r := by injection h2
            cases a <;>
              simp [simpleMarkResolver, linkMarkResolver, styledMarkResolver,
                highlightMarkResolver, textStyleMarkResolver, anchorMarkResolver,
                keysOf, topKeyNone]
          ·
            by_cases e6 : t = "underline"
            · subst e6
              have h2 : some (simpleMarkResolver "u") = some r := h
              obtain rfl : (simpleMarkResolver "u") = r := by injection h2
              cases a <;>
                simp [simpleMarkResolver, linkMarkResolver, styledMarkResolver,
                  highlightMarkResolver, textStyleMarkResolver, anchorMarkResolver,
                  keysOf, topKeyNone]
            ·
              by_cases e7 : t = "code"
              · subst e7
                have h2 : some (simpleMarkResolver "code") = some r := h
                obtain rfl : (simpleMarkResolver "code") = r := by injection h2
                cases a <;>
                  simp [simpleMarkResolver, linkMarkResolver, styledMarkResolver,
                    highlightMarkResolver, textStyleMarkResolver, anchorMarkResolver,
                    keysOf, topKeyNone]
              ·
                by_cases e8 : t = "subscript"
                · subst e8
                  have h2 : some (simpleMarkResolver "sub") = some r := h
                  obtain rfl : (simpleMarkResolver "sub") = r := by injection h2
                  cases a <;>
                    simp [simpleMarkResolver, linkMarkResolver, styledMarkResolver,
                      highlightMarkResolver, textStyleMarkResolver, anchorMarkResolver,
                      keysOf, topKeyNone]
                ·
                  by_cases e9 : t = "superscript"
                  · subst e9
                    have h2 : some (simpleMarkResolver "sup") = some r := h
                    obtain rfl : (simpleMarkResolver "sup") = r := by injection h2
                    cases a <;>
                      simp [simpleMarkResolver, linkMarkResolver, styledMarkResolver,
                        highlightMarkResolver, textStyleMarkResolver, anchorMarkResolver,
                        keysOf, topKeyNone]
                  ·
                    by_cases e10 : t = "highlight"
                    · subst e10
                      have h2 : some (highlightMarkResolver) = some r := h
                      obtain rfl : (highlightMarkResolver) = r := by injection h2
                      cases a <;>
                        simp [simpleMarkResolver, linkMarkResolver, styledMarkResolver,
                          highlightMarkResolver, textStyleMarkResolver, anchorMarkResolver,
                          keysOf, topKeyNone]
                    ·
                      by_cases e11 : t = "textStyle"
                      · subst e11
                        have h2 : some (textStyleMarkResolver) = some r := h
                        obtain rfl : (textStyleMarkResolver) = r := by injection h2
                        cases a <;>
                          simp [simpleMarkResolver, linkMarkResolver, styledMarkResolver,
                            highlightMarkResolver, textStyleMarkResolver, anchorMarkResolver,
                            keysOf, topKeyNone]
                      ·
                        by_cases e12 : t = "anchor"
                        · subst e12
                          have h2 : some (anchorMarkResolver) = some r := h
                          obtain rfl : (anchorMarkResolver) = r := by injection h2
                          cases a <;>
                            simp [simpleMarkResolver, linkMarkResolver, styledMarkResolver,
                              highlightMarkResolver, textStyleMarkResolver, anchorMarkResolver,
                              keysOf, topKeyNone]
                        · exact absurd h (by simp [defaultMarkResolvers, e1, e2, e3, e4, e5, e6, e7, e8, e9, e10, e11, e12])

/-- Every default node resolver, when it succeeds, returns either a fresh
unkeyed wrapper around its children (same key multiset) or a keyless
value, so `addKey` always stamps a fresh top-level key. -/
theorem default_node_clean :
    ∀ (t : String) (r : NodeResolver), defaultNodeResolvers t = some r →
      ∀ (ch : RVal) (a : Option Attrs) (v : RVal), r ch a = .ok v →
        (keysOf v = keysOf ch ∨ keysOf v = []) ∧ topKeyNone v := by
  intro t r h ch a v hv
  by_cases e1 : t = "heading"
  · subst e1
    have h2 : some (headingNodeResolver) = some r := h
    obtain rfl : (headingNodeResolver) = r := by injection h2
    simp only [headingNodeResolver, codeblockNodeResolver, imageNodeResolver,
      simpleNodeResolver, emptyNodeResolver, emojiNodeResolver] at hv
    cases a with
    | none => cases hv
    | some x =>
        cases hv
        exact ⟨Or.inl (by simp [keysOf]), by simp [topKeyNone]⟩
  ·
    by_cases e2 : t = "code_block"
    · subst e2
      have h2 : some (codeblockNodeResolver) = some r := h
      obtain rfl : (codeblockNodeResolver) = r := by injection h2
      simp only [headingNodeResolver, codeblockNodeResolver, imageNodeResolver,
        simpleNodeResolver, emptyNodeResolver, emojiNodeResolver] at hv
      cases a with
      | none => cases hv
      | some x =>
          cases hv
          exact ⟨Or.inl (by simp [keysOf]), by simp [topKeyNone]⟩
    ·
      by_cases e3 : t = "image"
      · subst e3
        have h2 : some (imageNodeResolver) = some r := h
        obtain rfl : (imageNodeResolver) = r := by injection h2
        simp only [headingNodeResolver, codeblockNodeResolver, imageNodeResolver,
          simpleNodeResolver, emptyNodeResolver, emojiNodeResolver] at hv
        cases hv
        exact ⟨Or.inl (by simp [keysOf]), by simp [topKeyNone]⟩
      ·
        by_cases e4 : t = "paragraph"
        · subst e4
          have h2 : some (simpleNodeResolver "p") = some r := h
          obtain rfl : (simpleNodeResolver "p") = r := by injection h2
          simp only [headingNodeResolver, codeblockNodeResolver, imageNodeResolver,
            simpleNodeResolver, emptyNodeResolver, emojiNodeResolver] at hv
          cases hv
          split
          · exact ⟨Or.inr rfl, by simp [topKeyNone]⟩
          · exact ⟨Or.inl (by simp [keysOf]), by simp [topKeyNone]⟩
        ·
          by_cases e5 : t = "blockquote"
          · subst e5
            have h2 : some (simpleNodeResolver "blockquote") = some r := h
            obtain rfl : (simpleNodeResolver "blockquote") = r := by injection h2
            simp only [headingNodeResolver, codeblockNodeResolver, imageNodeResolver,
              simpleNodeResolver, emptyNodeResolver, emojiNodeResolver] at hv
            cases hv
            split
            · exact ⟨Or.inr rfl, by simp [topKeyNone]⟩
            · exact ⟨Or.inl (by simp [keysOf]), by simp [topKeyNone]⟩
          ·
            by_cases e6 : t = "ordered_list"
            · subst e6
              have h2 : some (simpleNodeResolver "ol") = some r := h
              obtain rfl : (simpleNodeResolver "ol") = r := by injection h2
              simp only [headingNodeResolver, codeblockNodeResolver, imageNodeResolver,
                simpleNodeResolver, emptyNodeResolver, emojiNodeResolver] at hv
              cases hv
              split
              · exact ⟨Or.inr rfl, by simp [topKeyNone]⟩
              · exact ⟨Or.inl (by simp [keysOf]), by simp [topKeyNone]⟩
            ·
              by_cases e7 : t = "bullet_list"
              · subst e7
                have h2 : some (simpleNodeResolver "ul") = some r := h
                obtain rfl : (simpleNodeResolver "ul") = r := by injection h2
                simp only [headingNodeResolver, codeblockNodeResolver, imageNodeResolver,
                  simpleNodeResolver, emptyNodeResolver, emojiNodeResolver] at hv
                cases hv
                split
                · exact ⟨Or.inr rfl, by simp [topKeyNone]⟩
                · exact ⟨Or.inl (by simp [keysOf]), by simp [topKeyNone]⟩
              ·
                by_cases e8 : t = "list_item"
                · subst e8
                  have h2 : some (simpleNodeResolver "li") = some r := h
                  obtain rfl : (simpleNodeResolver "li") = r := by injection h2
                  simp only [headingNodeResolver, codeblockNodeResolver, imageNodeResolver,
                    simpleNodeResolver, emptyNodeResolver, emojiNodeResolver] at hv
                  cases hv
                  split
                  · exact ⟨Or.inr rfl, by simp [topKeyNone]⟩
                  · exact ⟨Or.inl (by simp [keysOf]), by simp [topKeyNone]⟩
                ·
                  by_cases e9 : t = "horizontal_rule"
                  · subst e9
                    have h2 : some (emptyNodeResolver "hr") = some r := h
                    obtain rfl : (emptyNodeResolver "hr") = r := by injection h2
                    simp only [headingNodeResolver, codeblockNodeResolver, imageNodeResolver,
                      simpleNodeResolver, emptyNodeResolver, emojiNodeResolver] at hv
                    cases hv
                    exact ⟨Or.inr (by simp [keysOf]), by simp [topKeyNone]⟩
                  ·
                    by_cases e10 : t = "hard_break"
                    · subst e10
                      have h2 : some (emptyNodeResolver "br") = some r := h
                      obtain rfl : (emptyNodeResolver "br") = r := by injection h2
                      simp only [headingNodeResolver, codeblockNodeResolver, imageNodeResolver,
                        simpleNodeResolver, emptyNodeResolver, emojiNodeResolver] at hv
                      cases hv
                      exact ⟨Or.inr (by simp [keysOf]), by simp [topKeyNone]⟩
                    ·
                      by_cases e11 : t = "emoji"
                      · subst e11
                        have h2 : some (emojiNodeResolver) = some r := h
                        obtain rfl : (emojiNodeResolver) = r := by injection h2
                        simp only [headingNodeResolver, codeblockNodeResolver, imageNodeResolver,
                          simpleNodeResolver, emptyNodeResolver, emojiNodeResolver] at hv
                        cases a with
                        | none =>
                            cases hv
                            exact ⟨Or.inr rfl, by simp [topKeyNone]⟩
                        | some x =>
                            dsimp only at hv
                            cases hcond : (strTruthy x.emoji || !strTruthy x.fallbackImage) with
                            | true =>
                                rw [if_pos hcond] at hv
                                cases hv
                                cases hxe : x.emoji <;>
                                  exact ⟨Or.inr (by simp [keysOf, hxe]), by simp [topKeyNone]⟩
                            | false =>
                                rw [if_neg (by simp [hcond])] at hv
                                cases hv
                                exact ⟨Or.inr (by simp [keysOf]), by simp [topKeyNone]⟩
                      · exact absurd h (by
                          simp [defaultNodeResolvers, e1, e2, e3, e4, e5, e6, e7, e8, e9, e10, e11])

theorem addKey_inv (v : RVal) (k lo : Nat) (ht : topKeyNone v) (hlk : lo ≤ k)
    (hb : KeysIn v lo k) (hnd : (keysOf v).Nodup) :
    k ≤ (addKey v k).2 ∧ KeysIn (addKey v k).1 lo (addKey v k).2
      ∧ (keysOf (addKey v k).1).Nodup := by
  cases v with
  | elem t p kk c =>
      have hkk : kk = none := ht
      subst hkk
      rw [show addKey (RVal.elem t p none c) k = (RVal.elem t p (some k) c, k + 1) from rfl]
      refine ⟨Nat.le_succ k, ?_, ?_⟩
      · intro j hj
        rw [keysOf_elem_some] at hj
        rcases List.mem_cons.mp hj with rfl | hj
        · exact ⟨hlk, Nat.lt_succ_self j⟩
        · have := hb j (by rw [keysOf_elem_none]; exact hj)
          exact ⟨this.1, Nat.lt_succ_of_lt this.2⟩
      · rw [keysOf_elem_some, List.nodup_cons]
        refine ⟨?_, ?_⟩
        · intro hk
          have := hb k (by rw [keysOf_elem_none]; exact hk)
          omega
        · rw [keysOf_elem_none] at hnd
          exact hnd
  | null => exact ⟨le_refl _, hb, hnd⟩
  | str s => exact ⟨le_refl _, hb, hnd⟩
  | arr xs => exact ⟨le_refl _, hb, hnd⟩

theorem foldMarks_inv :
    ∀ (ms : List Mark) (child : RVal) (k lo : Nat), lo ≤ k →
      KeysIn child lo k → (keysOf child).Nodup →
      k ≤ (foldMarks defaultConfig ms child k).2
      ∧ KeysIn (foldMarks defaultConfig ms child k).1 lo (foldMarks defaultConfig ms child k).2
      ∧ (keysOf (foldMarks defaultConfig ms child k).1).Nodup := by
  intro ms
  induction ms with
  | nil => exact fun child k lo _ hb hnd => ⟨le_refl k, hb, hnd⟩
  | cons m rest ih =>
      intro child k lo hlk hb hnd
      obtain ⟨h1, h2, h3⟩ := ih child k lo hlk hb hnd
      cases hr : defaultConfig.markResolvers m.type with
      | none =>
          rw [show foldMarks defaultConfig (m :: rest) child k
              = foldMarks defaultConfig rest child k from by simp [foldMarks, hr]]
          exact ⟨h1, h2, h3⟩
      | some r =>
          have heq : foldMarks defaultConfig (m :: rest) child k
              = addKey (r (foldMarks defaultConfig rest child k).1 m.attrs)
                  (foldMarks defaultConfig rest child k).2 := by
            simp [foldMarks, hr]
          have hcl := default_mark_clean m.type r hr
            (foldMarks defaultConfig rest child k).1 m.attrs
          have hb2 : KeysIn (r (foldMarks defaultConfig rest child k).1 m.attrs) lo
              (foldMarks defaultConfig rest child k).2 := by
            intro j hj
            rw [hcl.1] at hj
            exact h2 j hj
          have hnd2 : (keysOf (r (foldMarks defaultConfig rest child k).1 m.attrs)).Nodup := by
            rw [hcl.1]; exact h3
          have hres := addKey_inv _ (foldMarks defaultConfig rest child k).2 lo hcl.2
            (le_trans hlk h1) hb2 hnd2
          rw [heq]
          exact ⟨le_trans h1 hres.1, hres.2.1, hres.2.2⟩

theorem renderBloks_default :
    ∀ (body : List BlokRecord) (k : Nat),
      renderBloks defaultConfig body k = (body.map (fun _ => RVal.null), k) := by
  intro body
  induction body with
  | nil => intro k; rfl
  | cons r rest ih =>
      intro k
      rw [show renderBloks defaultConfig (r :: rest) k
          = (RVal.null :: (renderBloks defaultConfig rest k).1,
              (renderBloks defaultConfig rest k).2) from rfl, ih]
      rfl

theorem keysOfList_append :
    ∀ (l1 l2 : List RVal), keysOfList (l1 ++ l2) = keysOfList l1 ++ keysOfList l2 := by
  intro l1 l2
  induction l1 with
  | nil => rfl
  | cons v vs ih => simp [keysOfList_cons, ih]

theorem keysOfList_map_null {α : Type} :
    ∀ (body : List α), keysOfList (body.map (fun _ => RVal.null)) = [] := by
  intro body
  induction body with
  | nil => rfl
  | cons r rest ih => simpa [keysOfList_cons, keysOf] using ih

theorem keysOfList_sublist :
    ∀ {l1 l2 : List RVal}, List.Sublist l1 l2 →
      List.Sublist (keysOfList l1) (keysOfList l2) := by
  intro l1 l2 h
  induction h with
  | slnil => exact List.Sublist.refl _
  | cons v h ih => exact ih.trans (List.sublist_append_right _ _)
  | cons₂ v h ih => exact (List.Sublist.refl _).append ih

theorem keysOf_textResolver (tx : Option String) :
    keysOf (defaultConfig.textResolver tx) = [] := by
  cases tx <;> rfl

theorem except_map_ok {ε α β : Type} (f : α → β) (x : α) :
    Except.map f (Except.ok x : Except ε α) = .ok (f x) := rfl

/-- The key invariant of one renderer step: when the call started at
counter `k` and ends at `k'`, all keys of the output lie in `[k, k')` and
are pairwise distinct. -/
def KeyOut (k : Nat) (res : Except String (RVal × Nat)) : Prop :=
  ∀ v k', res = .ok (v, k') → k ≤ k' ∧ KeysIn v k k' ∧ (keysOf v).Nodup

/-- The key invariant for a rendered sibling list. -/
def KeyOutL (k : Nat) (res : Except String (List RVal × Nat)) : Prop :=
  ∀ vs k', res = .ok (vs, k') → k ≤ k' ∧ KeysInL vs k k' ∧ (keysOfList vs).Nodup

theorem renderNode_keys :
    ∀ (n : Node) (k : Nat), KeyOut k (renderNode defaultConfig n k) := by
  refine renderNode.induct defaultConfig
    (fun n k => KeyOut k (renderNode defaultConfig n k))
    (fun c k => KeyOut k (renderNodes defaultConfig c k))
    (fun ns k => KeyOutL k (renderNodesGo defaultConfig ns k))
    ?_ ?_ ?_ ?_ ?_ ?_ ?_ ?_ ?_ ?_
  · intro k c m tx v k' h
    simp [renderNode] at h
  · intro k c m tx a hbody v k' h
    simp [renderNode, hbody] at h
  · intro k c m tx a body hbody vs0 k2 hbloks v k' h
    simp only [renderNode, hbody] at h
    rw [renderBloks_default] at h
    obtain ⟨rfl, rfl⟩ : RVal.arr (body.map fun _ => RVal.null) = v ∧ k = k' := by
      constructor <;> injection h with h1 <;> injection h1
    refine ⟨le_refl _, ?_, ?_⟩
    · intro j hj
      rw [show keysOf (RVal.arr (body.map fun _ => RVal.null))
          = keysOfList (body.map fun _ => RVal.null) from rfl,
        keysOfList_map_null] at hj
      cases hj
    · rw [show keysOf (RVal.arr (body.map fun _ => RVal.null))
          = keysOfList (body.map fun _ => RVal.null) from rfl,
        keysOfList_map_null]
      exact List.nodup_nil
  · intro k a c m tx _ v k' h
    rw [show renderNode defaultConfig (Node.mk "text" a c m tx) k
        = .ok (foldMarks defaultConfig (m.getD []) (defaultConfig.textResolver tx) k)
        from rfl] at h
    have hseed : KeysIn (defaultConfig.textResolver tx) k k := by
      intro j hj
      rw [keysOf_textResolver] at hj
      cases hj
    have hnd : (keysOf (defaultConfig.textResolver tx)).Nodup := by
      rw [keysOf_textResolver]; exact List.nodup_nil
    have hinv := foldMarks_inv (m.getD []) (defaultConfig.textResolver tx) k k
      (le_refl k) hseed hnd
    obtain ⟨rfl, rfl⟩ :
        (foldMarks defaultConfig (m.getD []) (defaultConfig.textResolver tx) k).1 = v
        ∧ (foldMarks defaultConfig (m.getD []) (defaultConfig.textResolver tx) k).2 = k' := by
      injection h with h1
      rw [h1]
      exact ⟨rfl, rfl⟩
    exact hinv
  · intro k t a c m tx hb ht r hres ih v k' h
    simp only [renderNode, if_neg hb, if_neg ht, hres] at h
    cases hrn : renderNodes defaultConfig c k with
    | error e => rw [hrn] at h; simp [except_error_bind] at h
    | ok p =>
        obtain ⟨children, k1⟩ := p
        rw [hrn] at h
        simp only [except_ok_bind] at h
        cases hrv : r children a with
        | error e => rw [hrv] at h; simp [except_error_bind] at h
        | ok v0 =>
            rw [hrv] at h
            simp only [except_ok_bind, pure_bind] at h
            obtain ⟨hk1, hbc, hndc⟩ := ih children k1 hrn
            have hclean := default_node_clean t r hres children a v0 hrv
            have hb0 : KeysIn v0 k k1 := by
              intro j hj
              rcases hclean.1 with he | he
              · rw [he] at hj; exact hbc j hj
              · rw [he] at hj; cases hj
            have hnd0 : (keysOf v0).Nodup := by
              rcases hclean.1 with he | he
              · rw [he]; exact hndc
              · rw [he]; exact List.nodup_nil
            have hak := addKey_inv v0 k1 k hclean.2 hk1 hb0 hnd0
            have hfm := foldMarks_inv (m.getD []) (addKey v0 k1).1 (addKey v0 k1).2 k
              (le_trans hk1 hak.1) hak.2.1 hak.2.2
            obtain ⟨rfl, rfl⟩ :
                (foldMarks defaultConfig (m.getD []) (addKey v0 k1).1 (addKey v0 k1).2).1 = v
                ∧ (foldMarks defaultConfig (m.getD []) (addKey v0 k1).1 (addKey v0 k1).2).2 = k' := by
              injection h with h1
              rw [h1]
              exact ⟨rfl, rfl⟩
            exact ⟨le_trans hk1 (le_trans hak.1 hfm.1), hfm.2.1, hfm.2.2⟩
  · intro k t a c m tx hb ht hres v k' h
    simp only [renderNode, if_neg hb, if_neg ht, hres, pure_bind] at h
    have hseed : KeysIn RVal.null k k := by intro j hj; cases hj
    have hfm := foldMarks_inv (m.getD []) RVal.null k k (le_refl k) hseed List.nodup_nil
    obtain ⟨rfl, rfl⟩ :
        (foldMarks defaultConfig (m.getD []) RVal.null k).1 = v
        ∧ (foldMarks defaultConfig (m.getD []) RVal.null k).2 = k' := by
      injection h with h1
      rw [h1]
      exact ⟨rfl, rfl⟩
    exact hfm
  · intro k v k' h
    obtain ⟨rfl, rfl⟩ : RVal.null = v ∧ k = k' := by
      injection h with h1
      exact ⟨congrArg Prod.fst h1, congrArg Prod.snd h1⟩
    refine ⟨le_refl _, ?_, List.nodup_nil⟩
    intro j hj
    cases hj
  · intro k ns ih v k' h
    cases hgo : renderNodesGo defaultConfig ns k with
    | error e => rw [show renderNodes defaultConfig (some ns) k
        = (renderNodesGo defaultConfig ns k).map (fun p =>
            (if (filtNN p.1).isEmpty then RVal.null else RVal.arr (filtNN p.1), p.2))
        from renderNodes_as_map defaultConfig ns k, hgo] at h; cases h
    | ok p =>
        obtain ⟨vs, k1⟩ := p
        rw [renderNodes_as_map defaultConfig ns k, hgo, except_map_ok] at h
        obtain ⟨hk1, hbl, hndl⟩ := ih vs k1 hgo
        have hsub := keysOfList_sublist (List.filter_sublist (l := vs) (p := fun v => !v.isNullish))
        have h2 : (if (filtNN vs).isEmpty then RVal.null else RVal.arr (filtNN vs), k1)
            = (v, k') := by injection h
        obtain ⟨rfl, rfl⟩ :
            (if (filtNN vs).isEmpty then RVal.null else RVal.arr (filtNN vs)) = v ∧ k1 = k' :=
          ⟨congrArg Prod.fst h2, congrArg Prod.snd h2⟩
        refine ⟨hk1, ?_, ?_⟩
        · intro j hj
          split at hj
          · cases hj
          · rw [show keysOf (RVal.arr (filtNN vs)) = keysOfList (filtNN vs) from rfl] at hj
            exact hbl j (hsub.subset hj)
        · split
          · exact List.nodup_nil
          · rw [show keysOf (RVal.arr (filtNN vs)) = keysOfList (filtNN vs) from rfl]
            exact hndl.sublist hsub
  · intro k vs k' h
    obtain ⟨rfl, rfl⟩ : ([] : List RVal) = vs ∧ k = k' := by
      injection h with h1
      exact ⟨congrArg Prod.fst h1, congrArg Prod.snd h1⟩
    refine ⟨le_refl _, ?_, List.nodup_nil⟩
    intro j hj
    cases hj
  · intro k n rest ih1 ih2 vs k' h
    simp only [renderNodesGo] at h
    cases h1 : renderNode defaultConfig n k with
    | error e => rw [h1] at h; simp [except_error_bind] at h
    | ok p =>
        obtain ⟨v, k1⟩ := p
        rw [h1] at h
        simp only [except_ok_bind] at h
        cases h2 : renderNodesGo defaultConfig rest k1 with
        | error e => rw [h2] at h; simp [except_error_bind] at h
        | ok p2 =>
            obtain ⟨vs1, k2⟩ := p2
            rw [h2] at h
            simp only [except_ok_bind, pure_bind] at h
            obtain ⟨hk1, hb1, hnd1⟩ := ih1 v k1 h1
            obtain ⟨hk2, hb2, hnd2⟩ := ih2 k1 vs1 k2 h2
            obtain ⟨rfl, rfl⟩ : v :: vs1 = vs ∧ k2 = k' := by
              injection h with h1'
              exact ⟨congrArg Prod.fst h1', congrArg Prod.snd h1'⟩
            refine ⟨le_trans hk1 hk2, ?_, ?_⟩
            · intro j hj
              rw [keysOfList_cons] at hj
              rcases List.mem_append.mp hj with hj | hj
              · have := hb1 j hj
                exact ⟨this.1, lt_of_lt_of_le this.2 hk2⟩
              · have := hb2 j hj
                exact ⟨le_trans hk1 this.1, this.2⟩
            · rw [keysOfList_cons]
              refine List.Nodup.append hnd1 hnd2 ?_
              intro j hj1 hj2
              have b1 := hb1 j hj1
              have b2 := hb2 j hj2
              omega

theorem renderNodesGo_keys :
    ∀ (ns : List Node) (k : Nat), KeyOutL k (renderNodesGo defaultConfig ns k) := by
  intro ns
  induction ns with
  | nil =>
      intro k vs k' h
      obtain ⟨rfl, rfl⟩ : ([] : List RVal) = vs ∧ k = k' := by
        injection h with h1
        exact ⟨congrArg Prod.fst h1, congrArg Prod.snd h1⟩
      refine ⟨le_refl _, ?_, List.nodup_nil⟩
      intro j hj
      cases hj
  | cons n rest ih =>
      intro k vs k' h
      simp only [renderNodesGo] at h
      cases h1 : renderNode defaultConfig n k with
      | error e => rw [h1] at h; simp [except_error_bind] at h
      | ok p =>
          obtain ⟨v, k1⟩ := p
          rw [h1] at h
          simp only [except_ok_bind] at h
          cases h2 : renderNodesGo defaultConfig rest k1 with
          | error e => rw [h2] at h; simp [except_error_bind] at h
          | ok p2 =>
              obtain ⟨vs1, k2⟩ := p2
              rw [h2] at h
              simp only [except_ok_bind, pure_bind] at h
              obtain ⟨hk1, hb1, hnd1⟩ := renderNode_keys n k v k1 h1
              obtain ⟨hk2, hb2, hnd2⟩ := ih k1 vs1 k2 h2
              obtain ⟨rfl, rfl⟩ : v :: vs1 = vs ∧ k2 = k' := by
                injection h with h1'
                exact ⟨congrArg Prod.fst h1', congrArg Prod.snd h1'⟩
              refine ⟨le_trans hk1 hk2, ?_, ?_⟩
              · intro j hj
                rw [keysOfList_cons] at hj
                rcases List.mem_append.mp hj with hj | hj
                · have := hb1 j hj
                  exact ⟨this.1, lt_of_lt_of_le this.2 hk2⟩
                · have := hb2 j hj
                  exact ⟨le_trans hk1 this.1, this.2⟩
              · rw [keysOfList_cons]
                refine List.Nodup.append hnd1 hnd2 ?_
                intro j hj1 hj2
                have b1 := hb1 j hj1
                have b2 := hb2 j hj2
                omega

theorem renderNodes_keys :
    ∀ (c : Option (List Node)) (k : Nat), KeyOut k (renderNodes defaultConfig c k) := by
  intro c k
  cases c with
  | none =>
      intro v k' h
      obtain ⟨rfl, rfl⟩ : RVal.null = v ∧ k = k' := by
        injection h with h1
        exact ⟨congrArg Prod.fst h1, congrArg Prod.snd h1⟩
      refine ⟨le_refl _, ?_, List.nodup_nil⟩
      intro j hj
      cases hj
  | some ns =>
      intro v k' h
      cases hgo : renderNodesGo defaultConfig ns k with
      | error e =>
          rw [renderNodes_as_map defaultConfig ns k, hgo] at h
          cases h
      | ok p =>
          obtain ⟨vs, k1⟩ := p
          rw [renderNodes_as_map defaultConfig ns k, hgo, except_map_ok] at h
          obtain ⟨hk1, hbl, hndl⟩ := renderNodesGo_keys ns k vs k1 hgo
          have hsub := keysOfList_sublist
            (List.filter_sublist (l := vs) (p := fun v => !v.isNullish))
          have h2 : (if (filtNN vs).isEmpty then RVal.null else RVal.arr (filtNN vs), k1)
              = (v, k') := by injection h
          obtain ⟨rfl, rfl⟩ :
              (if (filtNN vs).isEmpty then RVal.null else RVal.arr (filtNN vs)) = v ∧ k1 = k' :=
            ⟨congrArg Prod.fst h2, congrArg Prod.snd h2⟩
          refine ⟨hk1, ?_, ?_⟩
          · intro j hj
            split at hj
            · cases hj
            · rw [show keysOf (RVal.arr (filtNN vs)) = keysOfList (filtNN vs) from rfl] at hj
              exact hbl j (hsub.subset hj)
          · split
            · exact List.nodup_nil
            · rw [show keysOf (RVal.arr (filtNN vs)) = keysOfList (filtNN vs) from rfl]
              exact hndl.sublist hsub

/-- C2: within one `render` invocation (default options), keys are stamped
by the single shared counter — `addKey` stamps every valid element with
the current counter value and increments it by exactly one, never
resetting between sibling groups or recursive calls — and consequently all
keys stamped in the output of one invocation are pairwise distinct (and
lie below the final counter value), regardless of nesting depth or
sibling-group boundaries. -/
theorem render_keys_pairwise_distinct :
    (∀ (t : String) (p : RProps) (kk : Option Nat) (ch : RVal) (k : Nat),
      addKey (RVal.elem t p kk ch) k = (RVal.elem t p (some k) ch, k + 1))
    ∧ (∀ (v : RVal) (k : Nat), isValidElement v = false → addKey v k = (v, k))
    ∧ (∀ (cs : List Node) (v : RVal),
      render (Input.obj (some "doc") (some cs)) defaultOptions = .ok v →
      (keysOf v).Nodup) := by
  refine ⟨fun _ _ _ _ _ => rfl, ?_, ?_⟩
  · intro v k h
    cases v with
    | elem t p kk c => simp [isValidElement] at h
    | null => rfl
    | str s => rfl
    | arr xs => rfl
  · intro cs v h
    rw [show render (Input.obj (some "doc") (some cs)) defaultOptions
        = (renderNodes defaultConfig (some cs) 0).map Prod.fst from rfl] at h
    cases hr : renderNodes defaultConfig (some cs) 0 with
    | error e => rw [hr] at h; cases h
    | ok p =>
        obtain ⟨v0, k'⟩ := p
        rw [hr, except_map_ok] at h
        obtain rfl : v0 = v := by injection h
        exact (renderNodes_keys (some cs) 0 v0 k' hr).2.2

theorem render_keys_pairwise_distinct_witness :
    addKey (RVal.elem "p" RProps.jsnull none (RVal.str "x")) 7
      = (RVal.elem "p" RProps.jsnull (some 7) (RVal.str "x"), 8)
    ∧ addKey (RVal.str "x") 7 = (RVal.str "x", 7)
    ∧ (keysOf (RVal.arr [RVal.elem "p" RProps.jsnull (some 1)
        (RVal.arr [RVal.elem "b" RProps.jsnull (some 0) (RVal.str "hi")])])).Nodup :=
  ⟨render_keys_pairwise_distinct.1 "p" RProps.jsnull none (RVal.str "x") 7,
    render_keys_pairwise_distinct.2.1 (RVal.str "x") 7 rfl,
    render_keys_pairwise_distinct.2.2
      [Node.mk "paragraph" none
        (some [Node.mk "text" none none (some [{type := "bold"}]) (some "hi")]) none none]
      (RVal.arr [RVal.elem "p" RProps.jsnull (some 1)
        (RVal.arr [RVal.elem "b" RProps.jsnull (some 0) (RVal.str "hi")])])
      rfl⟩

theorem mark_fold_applies_to_nonblok_nodes_witness :
    renderNode defaultConfig (Node.mk "image" none none (some [{type := "bold"}]) none) 0
      = (renderNodes defaultConfig none 0).bind (fun p =>
          (imageNodeResolver p.1 none).map (fun v =>
            foldMarks defaultConfig ((some [({type := "bold"} : Mark)]).getD [])
              (addKey v p.2).1 (addKey v p.2).2)) :=
  mark_fold_applies_to_nonblok_nodes.1 defaultConfig "image" none none
    (some [{type := "bold"}]) none 0 imageNodeResolver
    (by decide) (by decide) rfl
